import Mathlib

/-!
Shallow embedding of the Rating Engine and Player Store of `app/smash.py`
(functions `get_player_data`, `write_player_data`,
`check_and_reset_daily_changes`, `process_match_report`, `add_player`).

Modelling conventions:
* The durable filesystem state visible to this module is an `FsState`:
  the parsed-but-raw rows of `elos.csv`, the optional temporary artifact
  `elos.csv.tmp`, and the content of `last_reset_date.txt` (a timestamp,
  or `none` when the file is absent or malformed).
* Wall-clock instants are minutes in the `America/Chicago` zone, counted
  from an arbitrary epoch midnight; one day is 1440 minutes and the 6 AM
  reset boundary of a day is minute 360 of that day.
* A CSV cell that Python's `int(float(...))` would fail on is `CsvField.bad`;
  a cell it converts to the integer `v` is `CsvField.ok v`.
* I/O failure of the CSV write (any exception inside the `try` block of
  `write_player_data`) is modelled by a boolean `writeFails` argument;
  the Python function catches every exception, prints, removes the
  temporary file and returns normally, which the model mirrors by
  returning the unchanged durable rows with `tmp := none` and signalling
  nothing to the caller.
* `app/rating.py` (`new_rating`) is imported but not part of the store
  logic; the functions that call it are parameterised by an arbitrary
  `RatingFn` with the same shape `(own_rating, own_rd, opp_rating,
  opp_rd, outcome) -> (new_rating, new_rd, change)`.
-/

namespace Smash

/-- One parsed player row: `Name, Character, Rating, Confidence, DailyChange`. -/
structure PlayerRecord where
  name : String
  character : String
  rating : Int
  confidence : Int
  dailyChange : Int
  deriving Repr, DecidableEq, Inhabited

/-- A raw CSV cell for one of the three numeric columns: either an integer
value that `int(float(cell))` produces, or a value on which that conversion
raises. -/
inductive CsvField where
  | ok (v : Int)
  | bad
  deriving Repr, DecidableEq

/-- A raw row of `elos.csv` as `csv.DictReader` hands it to the parsing loop. -/
structure RawRow where
  name : String
  character : String
  rating : CsvField
  confidence : CsvField
  dailyChange : CsvField
  deriving Repr, DecidableEq

/-- The durable state owned by the module: the rows of `elos.csv`, the
temporary artifact `elos.csv.tmp` when it exists, and the instant stored in
`last_reset_date.txt` (`none`: absent or unparseable). -/
structure FsState where
  elos : List RawRow
  tmp : Option (List RawRow)
  lastReset : Option Nat
  deriving Repr, DecidableEq

/-- `_INITIAL_CONFIDENCE = 350` in `app/smash.py`. -/
def _INITIAL_CONFIDENCE : Int := 350

/-- Conversion of one numeric cell, `int(float(cell))`. -/
def parseField : CsvField → Option Int
  | .ok v => some v
  | .bad => none

/-- One iteration of the reading loop of `get_player_data`: the three
numeric conversions on a row, any of which can raise. -/
def parseRow (r : RawRow) : Option PlayerRecord := do
  let rating ← parseField r.rating
  let confidence ← parseField r.confidence
  let dailyChange ← parseField r.dailyChange
  pure ⟨r.name, r.character, rating, confidence, dailyChange⟩

/-- The row loop of `get_player_data`.  The `try` block of the source wraps
the WHOLE loop, so the first row whose conversion raises aborts the read:
the rows accumulated so far are returned and every later row is dropped. -/
def parseRows : List RawRow → List PlayerRecord
  | [] => []
  | r :: rs =>
    match parseRow r with
    | some p => p :: parseRows rs
    | none => []

/-- `get_player_data(perform_reset_check=False)`: read and parse the durable
rows (the absent-file branch creates an empty file and returns `[]`, which
coincides with parsing an empty row list). -/
def get_player_data (st : FsState) : List PlayerRecord :=
  parseRows st.elos

/-- Serialisation of one record by `csv.DictWriter` in `write_player_data`;
every written cell parses back as the integer it was written from. -/
def serializeRecord (p : PlayerRecord) : RawRow :=
  ⟨p.name, p.character, .ok p.rating, .ok p.confidence, .ok p.dailyChange⟩

/-- `write_player_data(players)`: write all rows to `elos.csv.tmp`, then
`os.replace` it over `elos.csv`.  On any exception (`writeFails = true`) the
handler prints, removes the temporary file and RETURNS NORMALLY — the durable
rows are untouched, the temporary artifact is gone, and no error reaches the
caller (the function has no error channel at all). -/
def write_player_data (writeFails : Bool) (players : List PlayerRecord)
    (st : FsState) : FsState :=
  if writeFails then
    { st with tmp := none }
  else
    { st with elos := players.map serializeRecord, tmp := none }

/-- `6**2` in `check_and_reset_daily_changes`: the squared drift constant of
the confidence decay. -/
def c_squared : Nat := 6 * 6

/-- Python's `round` applied to `sqrt n` for a natural `n`, as computed by
`(n)**0.5` on the magnitudes this module produces (`n ≤ 350² + 36`, where
double precision is exact enough to round to the same integer as the real
square root; `sqrt n` is never exactly halfway between two integers, so the
round-half-even rule never fires). -/
def roundSqrt (n : Nat) : Nat :=
  let s := Nat.sqrt n
  if n ≤ s * s + s then s else s + 1

/-- The per-record body of the decay loop: `DailyChange = 0`, then
`Confidence = min(round(sqrt(Confidence**2 + 6**2)), _INITIAL_CONFIDENCE)`. -/
def decayRecord (p : PlayerRecord) : PlayerRecord :=
  { p with
    dailyChange := 0,
    confidence :=
      min (Int.ofNat (roundSqrt ((p.confidence * p.confidence).toNat + c_squared)))
        _INITIAL_CONFIDENCE }

/-- `now_cst.replace(hour=6, minute=0, second=0, microsecond=0)`: the 6 AM
instant of the day containing `now` (minute 360 of that day). -/
def resetTimeToday (now : Nat) : Nat :=
  (now / 1440) * 1440 + 360

/-- The decision rule of `check_and_reset_daily_changes`: a pass is due iff
no reset was ever recorded, or the recorded instant is strictly before
today's 6 AM and the current instant is at or past today's 6 AM. -/
def resetDue (last : Option Nat) (now : Nat) : Bool :=
  match last with
  | none => true
  | some l => decide (l < resetTimeToday now) && decide (resetTimeToday now ≤ now)

/-- `check_and_reset_daily_changes()`: when a pass is due, read the players
(without re-entering the check), decay every record, persist via
`write_player_data`, and unconditionally overwrite `last_reset_date.txt`
with the current instant (the write of the CSV cannot raise out of
`write_player_data`, so this line always runs). -/
def check_and_reset_daily_changes (writeFails : Bool) (now : Nat)
    (st : FsState) : FsState :=
  if resetDue st.lastReset now then
    let players := get_player_data st
    let decayed := players.map decayRecord
    let st1 := write_player_data writeFails decayed st
    { st1 with lastReset := some now }
  else st

/-- `get_player_data()` with its default `perform_reset_check=True`: run the
daily check first, then read from the (possibly updated) durable rows. -/
def get_player_data_checked (writeFails : Bool) (now : Nat) (st : FsState) :
    FsState × List PlayerRecord :=
  let st1 := check_and_reset_daily_changes writeFails now st
  (st1, get_player_data st1)

/-- The shape of `new_rating` from `app/rating.py`:
`(own_rating, own_rd, opp_rating, opp_rd, outcome) ->
 (new_rating, new_rd, change)`. -/
abbrev RatingFn := Int → Int → Int → Int → Nat → Int × Int × Int

/-- The result messages of `process_match_report` and `add_player`, one
constructor per distinct string the source builds, carrying the data
interpolated into it. -/
inductive Msg where
  | invalidSelection
  | malformedPlayerData
  | playerNotFound
  | matchProcessed (wName wChar lName lChar : String)
      (oldWinnerRating newWinnerRating winnerChange : Int)
      (oldLoserRating newLoserRating loserChange : Int)
  | emptyNameOrChar
  | duplicatePlayer (name character : String)
  | addedPlayer (name character : String)
  deriving Repr, DecidableEq

/-- Python's `s.split('|')` on the character list of `s`: groups separated
by `'|'`, with empty groups kept (so the result always has one more group
than there are separators). -/
def splitPipe : List Char → List (List Char)
  | [] => [[]]
  | c :: cs =>
    if c = '|' then [] :: splitPipe cs
    else
      match splitPipe cs with
      | g :: gs => (c :: g) :: gs
      | [] => [[c]]

/-- `winner_str.split('|')` followed by unpacking into exactly two names;
any other number of parts raises `ValueError`. -/
def splitKey (s : String) : Option (String × String) :=
  match splitPipe s.data with
  | [a, b] => some (⟨a⟩, ⟨b⟩)
  | _ => none

/-- `next((p for p in all_players if p['Name'] == name and p['Character'] == character), None)`:
the first record whose Name and Character are EXACTLY equal to the key. -/
def findPlayer (players : List PlayerRecord) (name character : String) :
    Option PlayerRecord :=
  players.find? (fun p => p.name == name && p.character == character)

/-- Index of the record `findPlayer` returns, used to model in-place
mutation of the found dict inside the list. -/
def findPlayerIdx (players : List PlayerRecord) (name character : String) : Nat :=
  players.findIdx (fun p => p.name == name && p.character == character)

/-- In-place update of the list element at index `i`. -/
def listModify {α : Type} (i : Nat) (f : α → α) : List α → List α
  | [] => []
  | x :: xs =>
    match i with
    | 0 => f x :: xs
    | j + 1 => x :: listModify j f xs

/-- `process_match_report(winner_str, loser_str)`.  `nr` is `new_rating`;
`dwf` is whether the decay pass's CSV write (if one runs inside
`get_player_data`) fails, `wf` whether the final CSV write fails.  Returns
the resulting durable state and the `(success, message)` pair of the
source. -/
def process_match_report (nr : RatingFn) (dwf wf : Bool) (now : Nat)
    (winnerStr loserStr : String) (st : FsState) : FsState × Bool × Msg :=
  if winnerStr = "" ∨ loserStr = "" ∨ winnerStr = loserStr then
    (st, false, .invalidSelection)
  else
    match splitKey winnerStr, splitKey loserStr with
    | some (wName, wChar), some (lName, lChar) =>
      let res := get_player_data_checked dwf now st
      let st1 := res.1
      let allPlayers := res.2
      match findPlayer allPlayers wName wChar, findPlayer allPlayers lName lChar with
      | some w, some l =>
        let wi := findPlayerIdx allPlayers wName wChar
        let li := findPlayerIdx allPlayers lName lChar
        let oldWinnerRating := w.rating
        let oldLoserRating := l.rating
        let rw := nr oldWinnerRating w.confidence oldLoserRating l.confidence 1
        let rl := nr oldLoserRating l.confidence oldWinnerRating w.confidence 0
        let ps1 := listModify wi
          (fun p => { p with rating := rw.1, confidence := rw.2.1 }) allPlayers
        let ps2 := listModify li
          (fun p => { p with rating := rl.1, confidence := rl.2.1 }) ps1
        let ps3 := listModify wi
          (fun p => { p with dailyChange := p.dailyChange + rw.2.2 }) ps2
        let ps4 := listModify li
          (fun p => { p with dailyChange := p.dailyChange + rl.2.2 }) ps3
        let st2 := write_player_data wf ps4 st1
        (st2, true,
          .matchProcessed wName wChar lName lChar
            oldWinnerRating rw.1 rw.2.2 oldLoserRating rl.1 rl.2.2)
      | _, _ => (st1, false, .playerNotFound)
    | _, _ => (st, false, .malformedPlayerData)

/-- Python's `s.lower()` (characterwise lowercasing; on the ASCII names this
module stores the two agree). -/
def pyLower (s : String) : String :=
  ⟨s.data.map Char.toLower⟩

/-- The whitespace set of Python's default `str.strip()` on ASCII input. -/
def isPySpace (c : Char) : Bool :=
  c = ' ' || c = '\t' || c = '\n' || c = '\r' || c = '\x0b' || c = '\x0c'

/-- Python's `s.strip()` (both ends; `None` inputs reach the model as `""`,
on which stripping is the identity, matching `name.strip() if name else ""`). -/
def pyStrip (s : String) : String :=
  ⟨((s.data.dropWhile isPySpace).reverse.dropWhile isPySpace).reverse⟩

/-- `add_player(name, character)`: strip both inputs, reject empty, read the
players (with the daily check), reject a case-insensitive duplicate key,
otherwise append the new record with Rating 1500, Confidence 350,
DailyChange 0 and persist. -/
def add_player (dwf wf : Bool) (now : Nat) (nameIn charIn : String)
    (st : FsState) : FsState × Bool × Msg :=
  let name := pyStrip nameIn
  let character := pyStrip charIn
  if name = "" ∨ character = "" then
    (st, false, .emptyNameOrChar)
  else
    let res := get_player_data_checked dwf now st
    let st1 := res.1
    let allPlayers := res.2
    if allPlayers.any (fun p =>
        pyLower p.name == pyLower name && pyLower p.character == pyLower character) then
      (st1, false, .duplicatePlayer name character)
    else
      let newPlayer : PlayerRecord := ⟨name, character, 1500, _INITIAL_CONFIDENCE, 0⟩
      let st2 := write_player_data wf (allPlayers ++ [newPlayer]) st1
      (st2, true, .addedPlayer name character)

/-- The first 6 AM boundary instant strictly after `t`: today's 6 AM when
`t` lies before it, otherwise tomorrow's.  Used to state the idempotence of
the daily pass ("without crossing the next boundary"). -/
def nextBoundary (t : Nat) : Nat :=
  if t < resetTimeToday t then resetTimeToday t else resetTimeToday t + 1440

/-- A concrete stand-in for `new_rating`, used to instantiate the
`RatingFn`-parameterised theorems on closed inputs. -/
def nrTest : RatingFn := fun r c _ _ o =>
  (r + (if o = 1 then 10 else -10), c - 1, if o = 1 then 10 else -10)

/-- Concrete fixture records and states for closed instantiations. -/
def recAbe : PlayerRecord := ⟨"Abe", "Mario", 1500, 350, 0⟩

def recBob : PlayerRecord := ⟨"Bob", "Kirby", 1400, 300, 0⟩

/-- A row whose `Rating` cell fails `int(float(...))`. -/
def rowBad : RawRow := ⟨"Cpu", "Fox", CsvField.bad, CsvField.ok 350, CsvField.ok 0⟩

/-- Two players on disk; last reset at minute 370 of day 0 (no pass due at
minute 400 of day 0). -/
def stTwoPlayers : FsState := ⟨[serializeRecord recAbe, serializeRecord recBob], none, some 370⟩

/-- Two players on disk; `last_reset_date.txt` absent. -/
def stTwoNoReset : FsState := ⟨[serializeRecord recAbe, serializeRecord recBob], none, none⟩

/-- Empty store, never reset. -/
def stEmptyNone : FsState := ⟨[], none, none⟩

/-- Empty store, last reset at minute 370 of day 0. -/
def stEmptyReset : FsState := ⟨[], none, some 370⟩

/-- A store whose second row is malformed and whose third is well-formed. -/
def stC2 : FsState := ⟨[serializeRecord recAbe, rowBad, serializeRecord recBob], none, some 370⟩

/-- A record with mid-range confidence, for the decay-step instantiation. -/
def recDecayW : PlayerRecord := ⟨"Zed", "Falco", 1500, 8, 5⟩

/-! ### Helper lemmas -/

/-- `write_player_data` never touches `last_reset_date.txt`. -/
theorem write_player_data_lastReset (wf : Bool) (ps : List PlayerRecord)
    (st : FsState) : (write_player_data wf ps st).lastReset = st.lastReset := by
  unfold write_player_data
  split <;> rfl

/-- When no pass is due, the daily check leaves the state untouched. -/
theorem check_and_reset_not_due (wf : Bool) (now : Nat) (st : FsState)
    (h : resetDue st.lastReset now = false) :
    check_and_reset_daily_changes wf now st = st := by
  unfold check_and_reset_daily_changes
  rw [h]
  rfl

/-- When no pass is due, the checked read returns the state unchanged
together with its parsed rows. -/
theorem get_player_data_checked_not_due (wf : Bool) (now : Nat) (st : FsState)
    (h : resetDue st.lastReset now = false) :
    get_player_data_checked wf now st = (st, get_player_data st) := by
  unfold get_player_data_checked
  rw [check_and_reset_not_due wf now st h]

/-- `roundSqrt` rounds the square root up or not at all: it dominates the
floor square root. -/
theorem sqrt_le_roundSqrt (n : Nat) : Nat.sqrt n ≤ roundSqrt n := by
  unfold roundSqrt
  dsimp only
  split <;> omega

/-- After a pass records instant `t`, the decision rule declines at every
instant from `t` up to (excluding) the next 6 AM boundary. -/
theorem resetDue_false_before_next (t t' : Nat) (h1 : t ≤ t')
    (h2 : t' < nextBoundary t) : resetDue (some t) t' = false := by
  cases hb : resetDue (some t) t' with
  | false => rfl
  | true =>
    exfalso
    simp only [resetDue, Bool.and_eq_true, decide_eq_true_eq] at hb
    unfold nextBoundary resetTimeToday at h2
    unfold resetTimeToday at hb
    split at h2 <;> omega

/-- Reduction of `process_match_report` along its success path: when the
inputs validate, both keys split, and both lookups resolve, the result is
the write of the four in-place updates together with `success = true` and
the processed-match message built from the PRE-match records `w` and `l`. -/
theorem process_match_report_success (nr : RatingFn) (dwf wf : Bool) (now : Nat)
    (ws ls : String) (st : FsState) (wn wc ln lc : String) (w l : PlayerRecord)
    (hv : ¬(ws = "" ∨ ls = "" ∨ ws = ls))
    (hsw : splitKey ws = some (wn, wc)) (hsl : splitKey ls = some (ln, lc))
    (hw : findPlayer (get_player_data_checked dwf now st).2 wn wc = some w)
    (hl : findPlayer (get_player_data_checked dwf now st).2 ln lc = some l) :
    process_match_report nr dwf wf now ws ls st =
      (write_player_data wf
        (listModify (findPlayerIdx (get_player_data_checked dwf now st).2 ln lc)
          (fun p => { p with dailyChange :=
              p.dailyChange + (nr l.rating l.confidence w.rating w.confidence 0).2.2 })
          (listModify (findPlayerIdx (get_player_data_checked dwf now st).2 wn wc)
            (fun p => { p with dailyChange :=
                p.dailyChange + (nr w.rating w.confidence l.rating l.confidence 1).2.2 })
            (listModify (findPlayerIdx (get_player_data_checked dwf now st).2 ln lc)
              (fun p => { p with
                  rating := (nr l.rating l.confidence w.rating w.confidence 0).1,
                  confidence := (nr l.rating l.confidence w.rating w.confidence 0).2.1 })
              (listModify (findPlayerIdx (get_player_data_checked dwf now st).2 wn wc)
                (fun p => { p with
                    rating := (nr w.rating w.confidence l.rating l.confidence 1).1,
                    confidence := (nr w.rating w.confidence l.rating l.confidence 1).2.1 })
                (get_player_data_checked dwf now st).2))))
        (get_player_data_checked dwf now st).1,
       true,
       Msg.matchProcessed wn wc ln lc
         w.rating (nr w.rating w.confidence l.rating l.confidence 1).1
         (nr w.rating w.confidence l.rating l.confidence 1).2.2
         l.rating (nr l.rating l.confidence w.rating w.confidence 0).1
         (nr l.rating l.confidence w.rating w.confidence 0).2.2) := by
  unfold process_match_report
  rw [if_neg hv, hsw, hsl]
  dsimp only
  rw [hw, hl]

/-- `add_player` on a blank (post-strip) name or character: immediate
rejection, before any access to the store. -/
theorem add_player_empty_input (dwf wf : Bool) (now : Nat)
    (nameIn charIn : String) (st : FsState)
    (h : pyStrip nameIn = "" ∨ pyStrip charIn = "") :
    add_player dwf wf now nameIn charIn st = (st, false, Msg.emptyNameOrChar) := by
  unfold add_player
  rw [if_pos h]

/-- `add_player` on a case-insensitive duplicate key (decay not due):
rejection with the store untouched. -/
theorem add_player_dup (dwf wf : Bool) (now : Nat) (nameIn charIn : String)
    (st : FsState) (hndue : resetDue st.lastReset now = false)
    (hn : ¬ pyStrip nameIn = "") (hc : ¬ pyStrip charIn = "")
    (hex : ∃ p ∈ get_player_data st,
      pyLower p.name = pyLower (pyStrip nameIn) ∧
      pyLower p.character = pyLower (pyStrip charIn)) :
    add_player dwf wf now nameIn charIn st =
      (st, false, Msg.duplicatePlayer (pyStrip nameIn) (pyStrip charIn)) := by
  have hchk := get_player_data_checked_not_due dwf now st hndue
  have hany : ((get_player_data st).any fun p =>
      pyLower p.name == pyLower (pyStrip nameIn) &&
      pyLower p.character == pyLower (pyStrip charIn)) = true := by
    rw [List.any_eq_true]
    obtain ⟨p, hmem, h1, h2⟩ := hex
    exact ⟨p, hmem, by simp [h1, h2]⟩
  unfold add_player
  rw [if_neg (fun h => h.elim hn hc)]
  dsimp only
  rw [hchk]
  dsimp only
  rw [if_pos hany]

/-- `add_player` on a fresh key (decay not due, write succeeding): the new
record is appended with the default rating, confidence and daily change. -/
theorem add_player_append (dwf : Bool) (now : Nat) (nameIn charIn : String)
    (st : FsState) (hndue : resetDue st.lastReset now = false)
    (hn : ¬ pyStrip nameIn = "") (hc : ¬ pyStrip charIn = "")
    (hnex : ¬ ∃ p ∈ get_player_data st,
      pyLower p.name = pyLower (pyStrip nameIn) ∧
      pyLower p.character = pyLower (pyStrip charIn)) :
    add_player dwf false now nameIn charIn st =
      ({ st with
          elos := (get_player_data st ++
            [(⟨pyStrip nameIn, pyStrip charIn, 1500, _INITIAL_CONFIDENCE, 0⟩ : PlayerRecord)]).map
              serializeRecord,
          tmp := none },
        true, Msg.addedPlayer (pyStrip nameIn) (pyStrip charIn)) := by
  have hchk := get_player_data_checked_not_due dwf now st hndue
  have hany : ((get_player_data st).any fun p =>
      pyLower p.name == pyLower (pyStrip nameIn) &&
      pyLower p.character == pyLower (pyStrip charIn)) = false := by
    rw [Bool.eq_false_iff]
    intro htrue
    rw [List.any_eq_true] at htrue
    obtain ⟨p, hmem, hp⟩ := htrue
    simp only [Bool.and_eq_true, beq_iff_eq] at hp
    exact hnex ⟨p, hmem, hp.1, hp.2⟩
  unfold add_player
  rw [if_neg (fun h => h.elim hn hc)]
  dsimp only
  rw [hchk]
  dsimp only
  rw [if_neg (by simp [hany])]
  rfl

/-! ### Claims -/

/-- Claim C6: for confidence `c` in `[0, 350]` the decay step computes
`min(round(sqrt(c² + 6²)), 350)`; the result stays in `[0, 350]`, never
decreases below `c`, and `dailyChange` is set to `0` unconditionally. -/
theorem decay_step_bounds (p : PlayerRecord) (h0 : 0 ≤ p.confidence)
    (h350 : p.confidence ≤ 350) :
    (decayRecord p).confidence =
      min (Int.ofNat (roundSqrt ((p.confidence * p.confidence).toNat + 6 * 6))) 350 ∧
    0 ≤ (decayRecord p).confidence ∧
    (decayRecord p).confidence ≤ 350 ∧
    p.confidence ≤ (decayRecord p).confidence ∧
    (decayRecord p).dailyChange = 0 := by
  refine ⟨rfl, ?_, ?_, ?_, rfl⟩
  · exact le_min (Int.ofNat_nonneg _) (by norm_num [_INITIAL_CONFIDENCE])
  · exact min_le_right _ _
  · show p.confidence ≤ min (Int.ofNat (roundSqrt _)) _INITIAL_CONFIDENCE
    refine le_min ?_ h350
    obtain ⟨a, ha⟩ : ∃ a : Nat, p.confidence = Int.ofNat a :=
      ⟨p.confidence.toNat, (Int.toNat_of_nonneg h0).symm⟩
    rw [ha]
    have htn : ((Int.ofNat a * Int.ofNat a).toNat) = a * a := rfl
    rw [htn]
    have h1 : a ≤ Nat.sqrt (a * a + c_squared) :=
      le_trans (Nat.sqrt_eq a).ge (Nat.sqrt_le_sqrt (Nat.le_add_right _ _))
    exact Int.ofNat_le.mpr (le_trans h1 (sqrt_le_roundSqrt _))

/-- Closed instantiation of `decay_step_bounds` at confidence 8. -/
theorem decay_step_bounds_witness :
    (0 ≤ recDecayW.confidence ∧ recDecayW.confidence ≤ 350) ∧
    ((decayRecord recDecayW).confidence =
      min (Int.ofNat (roundSqrt ((recDecayW.confidence * recDecayW.confidence).toNat + 6 * 6))) 350 ∧
    0 ≤ (decayRecord recDecayW).confidence ∧
    (decayRecord recDecayW).confidence ≤ 350 ∧
    recDecayW.confidence ≤ (decayRecord recDecayW).confidence ∧
    (decayRecord recDecayW).dailyChange = 0) :=
  ⟨⟨by decide, by decide⟩, decay_step_bounds recDecayW (by decide) (by decide)⟩

/-- Claim C7: once a pass has run and recorded the current instant, a second
evaluation at any later instant before the next 6 AM boundary is crossed
declines, leaving records and the reset marker unchanged. -/
theorem decay_pass_idempotent (wf wf' : Bool) (now now' : Nat) (st : FsState)
    (hdue : resetDue st.lastReset now = true) (h1 : now ≤ now')
    (h2 : now' < nextBoundary now) :
    check_and_reset_daily_changes wf' now'
        (check_and_reset_daily_changes wf now st) =
      check_and_reset_daily_changes wf now st := by
  have hlr : (check_and_reset_daily_changes wf now st).lastReset = some now := by
    unfold check_and_reset_daily_changes
    rw [hdue]
    rfl
  apply check_and_reset_not_due
  rw [hlr]
  exact resetDue_false_before_next now now' h1 h2

/-- Closed instantiation of `decay_pass_idempotent`: first pass at minute
400 of day 0, second evaluation at minute 500. -/
theorem decay_pass_idempotent_witness :
    resetDue stEmptyNone.lastReset 400 = true ∧ 400 ≤ 500 ∧ 500 < nextBoundary 400 ∧
    check_and_reset_daily_changes false 500
        (check_and_reset_daily_changes false 400 stEmptyNone) =
      check_and_reset_daily_changes false 400 stEmptyNone :=
  ⟨by decide, by decide, by decide,
    decay_pass_idempotent false false 400 500 stEmptyNone (by decide) (by decide) (by decide)⟩

/-- Claim C2, counterexample: the store holds a well-formed row (`recBob`)
positioned after a malformed one, yet the read drops it — the `try` block
of `get_player_data` wraps the whole loop, so the first conversion failure
aborts the read instead of skipping one row. -/
theorem get_player_data_drops_suffix_cex :
    parseRow (serializeRecord recBob) = some recBob ∧
    get_player_data stC2 = [recAbe] ∧
    recBob ∉ get_player_data stC2 := by decide

/-- Claim C2, amended: a malformed row ends the read — the rows before the
first malformed row are returned, the malformed row and every row after it
are dropped. -/
theorem get_player_data_stops_at_malformed (pre : List RawRow) (bad : RawRow)
    (rest : List RawRow) (tm : Option (List RawRow)) (lr : Option Nat)
    (hpre : ∀ r ∈ pre, (parseRow r).isSome) (hbad : parseRow bad = none) :
    get_player_data ⟨pre ++ bad :: rest, tm, lr⟩ = pre.filterMap parseRow := by
  unfold get_player_data
  show parseRows (pre ++ bad :: rest) = pre.filterMap parseRow
  induction pre with
  | nil => simp [parseRows, hbad]
  | cons r rs ih =>
    have hr := hpre r (by simp)
    obtain ⟨p, hp⟩ := Option.isSome_iff_exists.mp hr
    rw [List.cons_append, List.filterMap_cons]
    unfold parseRows
    rw [hp]
    exact congrArg _ (ih fun x hx => hpre x (by simp [hx]))

/-- Closed instantiation of `get_player_data_stops_at_malformed` on a
one-good-row prefix. -/
theorem get_player_data_stops_at_malformed_witness :
    (∀ r ∈ [serializeRecord recAbe], (parseRow r).isSome) ∧
    parseRow rowBad = none ∧
    get_player_data ⟨[serializeRecord recAbe] ++ rowBad :: [serializeRecord recBob],
        none, some 370⟩ =
      [serializeRecord recAbe].filterMap parseRow :=
  ⟨by decide, by decide,
    get_player_data_stops_at_malformed [serializeRecord recAbe] rowBad
      [serializeRecord recBob] none (some 370) (by decide) (by decide)⟩

/-- Claim C3, counterexample: the store contains a record equal to the
requested key up to letter case, but the lookup `process_match_report`
performs is exact (`==` on `Name` and `Character`), so it finds nothing and
the report fails with the not-found message. -/
theorem report_lookup_case_sensitive_cex :
    pyLower "abe" = pyLower recAbe.name ∧
    pyLower "mario" = pyLower recAbe.character ∧
    findPlayer [recAbe, recBob] "abe" "mario" = none ∧
    (process_match_report nrTest false false 400 "abe|mario" "Bob|Kirby" stTwoPlayers).2.1
      = false ∧
    (process_match_report nrTest false false 400 "abe|mario" "Bob|Kirby" stTwoPlayers).2.2
      = Msg.playerNotFound := by decide

/-- Claim C3, amended: the lookup used by `process_match_report` matches
case-SENSITIVELY: it finds a record exactly when the record's `Name` and
`Character` equal the requested key verbatim. -/
theorem report_lookup_exact_match (players : List PlayerRecord) (n c : String)
    (hex : ∃ p ∈ players, p.name = n ∧ p.character = c) :
    ∃ q, findPlayer players n c = some q ∧ q.name = n ∧ q.character = c := by
  obtain ⟨p, hmem, hn, hc⟩ := hex
  have hsome : (players.find? (fun p => p.name == n && p.character == c)).isSome :=
    List.find?_isSome.mpr ⟨p, hmem, by simp [hn, hc]⟩
  obtain ⟨q, hq⟩ := Option.isSome_iff_exists.mp hsome
  have hpq := List.find?_some hq
  simp only [Bool.and_eq_true, beq_iff_eq] at hpq
  exact ⟨q, hq, hpq.1, hpq.2⟩

/-- Closed instantiation of `report_lookup_exact_match` on an exact key. -/
theorem report_lookup_exact_match_witness :
    (∃ p ∈ [recAbe, recBob], p.name = "Bob" ∧ p.character = "Kirby") ∧
    ∃ q, findPlayer [recAbe, recBob] "Bob" "Kirby" = some q ∧
      q.name = "Bob" ∧ q.character = "Kirby" :=
  ⟨by decide, report_lookup_exact_match [recAbe, recBob] "Bob" "Kirby" (by decide)⟩

/-- Claim C1, counterexample: with two resolvable players, a final
persistence failure (`wf = true`) still yields `success = true`; the
durable rows are unchanged (the write really failed), while the same report
with a succeeding write does change them — so the failed write is absorbed,
not surfaced. -/
theorem report_success_despite_write_failure_cex :
    (process_match_report nrTest false true 400 "Abe|Mario" "Bob|Kirby" stTwoPlayers).2.1
      = true ∧
    (process_match_report nrTest false true 400 "Abe|Mario" "Bob|Kirby" stTwoPlayers).1.elos
      = stTwoPlayers.elos ∧
    (process_match_report nrTest false false 400 "Abe|Mario" "Bob|Kirby" stTwoPlayers).1.elos
      ≠ stTwoPlayers.elos := by decide

/-- Claim C1, amended: `write_player_data` absorbs every write failure
(logs and returns normally, exposing no error channel), so a
`process_match_report` whose final persistence step fails still returns a
success result. -/
theorem report_write_failure_absorbed (nr : RatingFn) (dwf : Bool) (now : Nat)
    (ws ls : String) (st : FsState) (wn wc ln lc : String) (w l : PlayerRecord)
    (hv : ¬(ws = "" ∨ ls = "" ∨ ws = ls))
    (hsw : splitKey ws = some (wn, wc)) (hsl : splitKey ls = some (ln, lc))
    (hw : findPlayer (get_player_data_checked dwf now st).2 wn wc = some w)
    (hl : findPlayer (get_player_data_checked dwf now st).2 ln lc = some l) :
    (process_match_report nr dwf true now ws ls st).2.1 = true := by
  rw [process_match_report_success nr dwf true now ws ls st wn wc ln lc w l
    hv hsw hsl hw hl]

/-- Closed instantiation of `report_write_failure_absorbed`. -/
theorem report_write_failure_absorbed_witness :
    splitKey "Abe|Mario" = some ("Abe", "Mario") ∧
    findPlayer (get_player_data_checked false 400 stTwoPlayers).2 "Abe" "Mario"
      = some recAbe ∧
    (process_match_report nrTest false true 400 "Abe|Mario" "Bob|Kirby" stTwoPlayers).2.1
      = true :=
  ⟨by decide, by decide,
    report_write_failure_absorbed nrTest false 400 "Abe|Mario" "Bob|Kirby" stTwoPlayers
      "Abe" "Mario" "Bob" "Kirby" recAbe recBob
      (by decide) (by decide) (by decide) (by decide) (by decide)⟩

/-- Claim C4, counterexample: a due pass whose CSV persistence fails still
overwrites `last_reset_date.txt` with the current instant — the write
failure is swallowed inside `write_player_data`, so the line writing the
marker always runs.  The rows are unchanged (the decay really was not
persisted), yet the marker advanced from `none` to `some 400`. -/
theorem decay_boundary_advanced_cex :
    stTwoNoReset.lastReset = none ∧
    resetDue stTwoNoReset.lastReset 400 = true ∧
    (check_and_reset_daily_changes true 400 stTwoNoReset).elos = stTwoNoReset.elos ∧
    (check_and_reset_daily_changes true 400 stTwoNoReset).lastReset = some 400 := by
  decide

/-- Claim C4, amended: when a due pass's persistence fails, the durable rows
are left unchanged but the boundary timestamp IS advanced to the current
instant, so the pass is NOT retried on the next evaluation. -/
theorem decay_boundary_advanced_on_write_failure (now : Nat) (st : FsState)
    (hdue : resetDue st.lastReset now = true) :
    check_and_reset_daily_changes true now st =
      { st with tmp := none, lastReset := some now } := by
  unfold check_and_reset_daily_changes
  rw [hdue]
  rfl

/-- Closed instantiation of `decay_boundary_advanced_on_write_failure`. -/
theorem decay_boundary_advanced_on_write_failure_witness :
    resetDue stTwoNoReset.lastReset 400 = true ∧
    check_and_reset_daily_changes true 400 stTwoNoReset =
      { stTwoNoReset with tmp := none, lastReset := some 400 } :=
  ⟨by decide, decay_boundary_advanced_on_write_failure 400 stTwoNoReset (by decide)⟩

/-- Claim C5: `process_match_report` is atomic with respect to the durable
store — when the final save fails (at any point the `try` block covers,
including the temporary write and the replace), the durable rows still hold
exactly the pre-match records and the temporary artifact is removed. -/
theorem report_atomic_on_write_failure (nr : RatingFn) (now : Nat)
    (ws ls : String) (st : FsState) (wn wc ln lc : String) (w l : PlayerRecord)
    (hv : ¬(ws = "" ∨ ls = "" ∨ ws = ls))
    (hsw : splitKey ws = some (wn, wc)) (hsl : splitKey ls = some (ln, lc))
    (hndue : resetDue st.lastReset now = false)
    (hw : findPlayer (get_player_data st) wn wc = some w)
    (hl : findPlayer (get_player_data st) ln lc = some l) :
    (process_match_report nr false true now ws ls st).1.elos = st.elos ∧
    (process_match_report nr false true now ws ls st).1.tmp = none := by
  have hchk := get_player_data_checked_not_due false now st hndue
  have hw' : findPlayer (get_player_data_checked false now st).2 wn wc = some w := by
    rw [hchk]; exact hw
  have hl' : findPlayer (get_player_data_checked false now st).2 ln lc = some l := by
    rw [hchk]; exact hl
  rw [process_match_report_success nr false true now ws ls st wn wc ln lc w l
    hv hsw hsl hw' hl']
  rw [hchk]
  exact ⟨rfl, rfl⟩

/-- Closed instantiation of `report_atomic_on_write_failure`. -/
theorem report_atomic_on_write_failure_witness :
    resetDue stTwoPlayers.lastReset 400 = false ∧
    (process_match_report nrTest false true 400 "Abe|Mario" "Bob|Kirby" stTwoPlayers).1.elos
      = stTwoPlayers.elos ∧
    (process_match_report nrTest false true 400 "Abe|Mario" "Bob|Kirby" stTwoPlayers).1.tmp
      = none := by
  refine ⟨by decide, ?_⟩
  exact report_atomic_on_write_failure nrTest 400 "Abe|Mario" "Bob|Kirby" stTwoPlayers
    "Abe" "Mario" "Bob" "Kirby" recAbe recBob
    (by decide) (by decide) (by decide) (by decide) (by decide) (by decide)

/-- Claim C8: both rating updates of a successful report are computed from
the same pre-match snapshot — the winner's update takes the loser's
pre-match rating and confidence as opponent inputs and conversely, as
witnessed by the structured result being exactly the two applications of
the rating function to the pre-match records `w` and `l`. -/
theorem report_uses_pre_match_snapshot (nr : RatingFn) (dwf wf : Bool) (now : Nat)
    (ws ls : String) (st : FsState) (wn wc ln lc : String) (w l : PlayerRecord)
    (hv : ¬(ws = "" ∨ ls = "" ∨ ws = ls))
    (hsw : splitKey ws = some (wn, wc)) (hsl : splitKey ls = some (ln, lc))
    (hw : findPlayer (get_player_data_checked dwf now st).2 wn wc = some w)
    (hl : findPlayer (get_player_data_checked dwf now st).2 ln lc = some l) :
    (process_match_report nr dwf wf now ws ls st).2.2 =
      Msg.matchProcessed wn wc ln lc
        w.rating (nr w.rating w.confidence l.rating l.confidence 1).1
        (nr w.rating w.confidence l.rating l.confidence 1).2.2
        l.rating (nr l.rating l.confidence w.rating w.confidence 0).1
        (nr l.rating l.confidence w.rating w.confidence 0).2.2 := by
  rw [process_match_report_success nr dwf wf now ws ls st wn wc ln lc w l
    hv hsw hsl hw hl]

/-- Closed instantiation of `report_uses_pre_match_snapshot`. -/
theorem report_uses_pre_match_snapshot_witness :
    (process_match_report nrTest false false 400 "Abe|Mario" "Bob|Kirby" stTwoPlayers).2.2 =
      Msg.matchProcessed "Abe" "Mario" "Bob" "Kirby"
        recAbe.rating (nrTest recAbe.rating recAbe.confidence recBob.rating recBob.confidence 1).1
        (nrTest recAbe.rating recAbe.confidence recBob.rating recBob.confidence 1).2.2
        recBob.rating (nrTest recBob.rating recBob.confidence recAbe.rating recAbe.confidence 0).1
        (nrTest recBob.rating recBob.confidence recAbe.rating recAbe.confidence 0).2.2 :=
  report_uses_pre_match_snapshot nrTest false false 400 "Abe|Mario" "Bob|Kirby" stTwoPlayers
    "Abe" "Mario" "Bob" "Kirby" recAbe recBob
    (by decide) (by decide) (by decide) (by decide) (by decide)

/-- Claim C9: `add_player` enforces case-insensitive uniqueness of the
`(name, character)` key — a key already present up to letter case is
rejected with the duplicate message and the store untouched; a fresh key is
appended with rating 1500, confidence 350, dailyChange 0. -/
theorem add_player_unique_key (dwf wf : Bool) (now : Nat)
    (nameIn charIn : String) (st : FsState)
    (hndue : resetDue st.lastReset now = false)
    (hn : ¬ pyStrip nameIn = "") (hc : ¬ pyStrip charIn = "") :
    ((∃ p ∈ get_player_data st,
        pyLower p.name = pyLower (pyStrip nameIn) ∧
        pyLower p.character = pyLower (pyStrip charIn)) →
      add_player dwf wf now nameIn charIn st =
        (st, false, Msg.duplicatePlayer (pyStrip nameIn) (pyStrip charIn))) ∧
    ((¬ ∃ p ∈ get_player_data st,
        pyLower p.name = pyLower (pyStrip nameIn) ∧
        pyLower p.character = pyLower (pyStrip charIn)) → wf = false →
      add_player dwf wf now nameIn charIn st =
        ({ st with
            elos := (get_player_data st ++
              [(⟨pyStrip nameIn, pyStrip charIn, 1500, _INITIAL_CONFIDENCE, 0⟩ : PlayerRecord)]).map
                serializeRecord,
            tmp := none },
          true, Msg.addedPlayer (pyStrip nameIn) (pyStrip charIn))) :=
  ⟨fun hex => add_player_dup dwf wf now nameIn charIn st hndue hn hc hex,
   fun hnex hwf => hwf ▸ add_player_append dwf now nameIn charIn st hndue hn hc hnex⟩

/-- Closed instantiation of `add_player_unique_key`: with `("Abe","Mario")`
already stored, inserting `("abe","mario")` fails and leaves the store
unchanged; inserting the fresh `("Carl","Link")` appends the default
record. -/
theorem add_player_unique_key_witness :
    resetDue stTwoPlayers.lastReset 400 = false ∧
    add_player false false 400 "abe" "mario" stTwoPlayers =
      (stTwoPlayers, false, Msg.duplicatePlayer "abe" "mario") ∧
    add_player false false 400 "Carl" "Link" stTwoPlayers =
      ({ stTwoPlayers with
          elos := (get_player_data stTwoPlayers ++
            [(⟨"Carl", "Link", 1500, _INITIAL_CONFIDENCE, 0⟩ : PlayerRecord)]).map
              serializeRecord,
          tmp := none },
        true, Msg.addedPlayer "Carl" "Link") := by
  refine ⟨by decide, ?_, ?_⟩
  · exact (add_player_unique_key false false 400 "abe" "mario" stTwoPlayers
      (by decide) (by decide) (by decide)).1 (by decide)
  · exact (add_player_unique_key false false 400 "Carl" "Link" stTwoPlayers
      (by decide) (by decide) (by decide)).2 (by decide) rfl

/-- Claim C10: `add_player` strips surrounding whitespace from both inputs
before validating — a name or character that is empty or whitespace-only is
rejected with the durable state completely untouched (the check precedes
any store access, including the decay-triggering read), and an accepted
input is stored with the stripped name and character. -/
theorem add_player_strips_whitespace (dwf wf : Bool) (now : Nat)
    (nameIn charIn : String) (st : FsState) :
    ((pyStrip nameIn = "" ∨ pyStrip charIn = "") →
      add_player dwf wf now nameIn charIn st = (st, false, Msg.emptyNameOrChar)) ∧
    (resetDue st.lastReset now = false →
      ¬ pyStrip nameIn = "" → ¬ pyStrip charIn = "" →
      (¬ ∃ p ∈ get_player_data st,
        pyLower p.name = pyLower (pyStrip nameIn) ∧
        pyLower p.character = pyLower (pyStrip charIn)) → wf = false →
      (add_player dwf wf now nameIn charIn st).2.1 = true ∧
      ∃ pre, (add_player dwf wf now nameIn charIn st).1.elos =
        pre ++ [serializeRecord
          ⟨pyStrip nameIn, pyStrip charIn, 1500, _INITIAL_CONFIDENCE, 0⟩]) := by
  constructor
  · exact fun h => add_player_empty_input dwf wf now nameIn charIn st h
  · intro hndue hn hc hnex hwf
    subst hwf
    rw [add_player_append dwf now nameIn charIn st hndue hn hc hnex]
    refine ⟨rfl, (get_player_data st).map serializeRecord, ?_⟩
    simp

/-- Closed instantiation of `add_player_strips_whitespace`: a whitespace-only
name is rejected without touching a store whose decay pass would otherwise
be due, and `" Carl "`/`" Link "` are stored stripped. -/
theorem add_player_strips_whitespace_witness :
    pyStrip "   " = "" ∧
    add_player false false 400 "   " "Mario" stTwoNoReset =
      (stTwoNoReset, false, Msg.emptyNameOrChar) ∧
    ((add_player false false 400 " Carl " " Link " stTwoPlayers).2.1 = true ∧
      ∃ pre, (add_player false false 400 " Carl " " Link " stTwoPlayers).1.elos =
        pre ++ [serializeRecord
          ⟨pyStrip " Carl ", pyStrip " Link ", 1500, _INITIAL_CONFIDENCE, 0⟩]) := by
  refine ⟨by decide, ?_, ?_⟩
  · exact (add_player_strips_whitespace false false 400 "   " "Mario" stTwoNoReset).1
      (by decide)
  · exact (add_player_strips_whitespace false false 400 " Carl " " Link " stTwoPlayers).2
      (by decide) (by decide) (by decide) (by decide) rfl

end Smash
